import Mathlib

/-!
Shallow embedding of the schema-validated structured-extraction protocol of
`src/demos/demo_structured_output.py`.

The Python module defines a Pydantic model `UserProfile` (five required fields:
`name : str`, `age : int`, `city : str`, `interests : List[str]`,
`is_student : bool`) and an `ExtractionAgent` whose `extract` method runs a
retry loop: render the prompt from a fixed template, call the LLM, try
`output_model.model_validate_json(response_text)`; on a parse/validation
failure append the failing raw output and the error text to the prompt and
retry; after `max_retries` failures return `None`.

Embedding choices:
* JSON values are the inductive `Json`; `parseJsonStr` is a fuel-based
  recursive-descent parser for the JSON grammar used by the validation call
  (restricted to integer numeric literals and the common string escapes —
  the only numeric/string forms the schema and the development exercise).
* `UserProfile.model_validate_json` mirrors Pydantic validation in its
  default (lax) mode on the relevant types: parse the raw string, require the
  candidate to be an object, then check/coerce each declared field; extra
  fields are ignored (Pydantic default), error messages are abbreviated but
  keep the Pydantic structure (the offending field name plus an expected-type
  description); an unparsable string yields an error whose text marks it as a
  JSON (parse) error.  Both exception classes the source catches
  (`ValidationError`, `json.JSONDecodeError`) are represented by
  `Except.error`, matching the single `except` arm of the source.
* The LLM collaborator is a function from the attempt index and the sent
  message list to `Except String String`; `Except.error` models an exception
  raised by `llm.chat`, which the source does not catch.
* `extractGo` is the loop body of `ExtractionAgent.extract`; its result pairs
  the outcome (`success` = return of the validated value, `exhausted` =
  return of `None`, `invocationError` = an uncaught collaborator exception)
  with the trace of prompts sent, one entry per model invocation — the only
  observable side effect of the loop.
-/

/-- JSON values, as produced by the JSON parsing step inside the validation
call of the source. Numbers are restricted to integers. -/
inductive Json where
  | null : Json
  | bool : Bool → Json
  | num : Int → Json
  | str : String → Json
  | arr : List Json → Json
  | obj : List (String × Json) → Json

/-- The double-quote character. -/
def quoteChar : Char := Char.ofNat 34

/-- The opening-brace character. -/
def lbrace : Char := Char.ofNat 123

/-- The closing-brace character. -/
def rbrace : Char := Char.ofNat 125

/-- JSON insignificant whitespace characters. -/
def jsonWs (c : Char) : Bool :=
  c == ' ' || c == '\t' || c == '\n' || c == '\r'

/-- Drop leading JSON whitespace. -/
def skipWs : List Char → List Char
  | [] => []
  | c :: cs => if jsonWs c then skipWs cs else c :: cs

/-- Decode one string-escape character. -/
def escChar (c : Char) : Option Char :=
  if c = quoteChar then some quoteChar
  else if c = '\\' then some '\\'
  else if c = '/' then some '/'
  else if c = 'n' then some '\n'
  else if c = 't' then some '\t'
  else if c = 'r' then some '\r'
  else if c = 'b' then some (Char.ofNat 8)
  else if c = 'f' then some (Char.ofNat 12)
  else none

/-- Consume the body of a JSON string after the opening quote, returning the
decoded characters and the remaining input. -/
def parseStringChars : List Char → Option (List Char × List Char)
  | [] => none
  | c :: cs =>
    if c = quoteChar then some ([], cs)
    else if c = '\\' then
      match cs with
      | [] => none
      | e :: cs2 =>
        match escChar e, parseStringChars cs2 with
        | some ec, some (body, rest) => some (ec :: body, rest)
        | _, _ => none
    else
      match parseStringChars cs with
      | some (body, rest) => some (c :: body, rest)
      | none => none

/-- Match an expected literal character sequence at the head of the input. -/
def stripPrefixChars : List Char → List Char → Option (List Char)
  | [], l => some l
  | p :: ps, c :: cs => if c = p then stripPrefixChars ps cs else none
  | _ :: _, [] => none

/-- Longest leading run of decimal digits. -/
def takeDigits : List Char → (List Char × List Char)
  | [] => ([], [])
  | c :: cs =>
    if c.isDigit then
      let (d, r) := takeDigits cs
      (c :: d, r)
    else ([], c :: cs)

/-- Numeric value of a digit run. -/
def digitsToNat (ds : List Char) : Nat :=
  ds.foldl (fun a c => a * 10 + (c.toNat - 48)) 0

/-- True when the input continues with a fraction or exponent marker. -/
def numberContinues : List Char → Bool
  | c :: _ => c == '.' || c == 'e' || c == 'E'
  | [] => false

/-- Parse an integer numeric literal starting at the head of the input. -/
def parseNumberFrom (l : List Char) : Except String (Json × List Char) :=
  match l with
  | '-' :: cs =>
    let (ds, rest) := takeDigits cs
    if ds.isEmpty then Except.error "Expecting value"
    else if numberContinues rest then Except.error "Unsupported number literal"
    else Except.ok (Json.num (-(Int.ofNat (digitsToNat ds))), rest)
  | cs =>
    let (ds, rest) := takeDigits cs
    if ds.isEmpty then Except.error "Expecting value"
    else if numberContinues rest then Except.error "Unsupported number literal"
    else Except.ok (Json.num (Int.ofNat (digitsToNat ds)), rest)

mutual

/-- Parse one JSON value; the fuel bounds the recursion depth. -/
def parseValue : Nat → List Char → Except String (Json × List Char)
  | 0, _ => Except.error "Expecting value"
  | fuel + 1, l =>
    match skipWs l with
    | [] => Except.error "Expecting value"
    | c :: cs =>
      if c = quoteChar then
        match parseStringChars cs with
        | some (body, rest) => Except.ok (Json.str (String.mk body), rest)
        | none => Except.error "Unterminated string"
      else if c = lbrace then
        match skipWs cs with
        | c2 :: cs2 =>
          if c2 = rbrace then Except.ok (Json.obj [], cs2)
          else
            match parseObjItems fuel (c2 :: cs2) with
            | Except.ok (kvs, rest) => Except.ok (Json.obj kvs, rest)
            | Except.error e => Except.error e
        | [] => Except.error "Expecting property name"
      else if c = '[' then
        match skipWs cs with
        | ']' :: rest => Except.ok (Json.arr [], rest)
        | rest =>
          match parseArrItems fuel rest with
          | Except.ok (xs, rest2) => Except.ok (Json.arr xs, rest2)
          | Except.error e => Except.error e
      else if c = 'n' then
        match stripPrefixChars ['u', 'l', 'l'] cs with
        | some rest => Except.ok (Json.null, rest)
        | none => Except.error "Expecting value"
      else if c = 't' then
        match stripPrefixChars ['r', 'u', 'e'] cs with
        | some rest => Except.ok (Json.bool true, rest)
        | none => Except.error "Expecting value"
      else if c = 'f' then
        match stripPrefixChars ['a', 'l', 's', 'e'] cs with
        | some rest => Except.ok (Json.bool false, rest)
        | none => Except.error "Expecting value"
      else if c = '-' ∨ c.isDigit then
        parseNumberFrom (c :: cs)
      else Except.error "Expecting value"

/-- Parse the comma-separated items of a non-empty JSON array, including the
closing bracket. -/
def parseArrItems : Nat → List Char → Except String (List Json × List Char)
  | 0, _ => Except.error "Expecting value"
  | fuel + 1, l =>
    match parseValue fuel l with
    | Except.error e => Except.error e
    | Except.ok (j, rest) =>
      match skipWs rest with
      | ']' :: rest2 => Except.ok ([j], rest2)
      | ',' :: rest2 =>
        match parseArrItems fuel rest2 with
        | Except.ok (js, rest3) => Except.ok (j :: js, rest3)
        | Except.error e => Except.error e
      | _ => Except.error "Expecting comma or bracket"

/-- Parse the comma-separated members of a non-empty JSON object, including
the closing brace. -/
def parseObjItems : Nat → List Char → Except String (List (String × Json) × List Char)
  | 0, _ => Except.error "Expecting property name"
  | fuel + 1, l =>
    match skipWs l with
    | c :: cs =>
      if c = quoteChar then
        match parseStringChars cs with
        | some (keyChars, afterKey) =>
          match skipWs afterKey with
          | ':' :: afterColon =>
            match parseValue fuel afterColon with
            | Except.ok (v, rest) =>
              match skipWs rest with
              | c2 :: rest2 =>
                if c2 = rbrace then Except.ok ([(String.mk keyChars, v)], rest2)
                else if c2 = ',' then
                  match parseObjItems fuel rest2 with
                  | Except.ok (kvs, rest3) =>
                    Except.ok ((String.mk keyChars, v) :: kvs, rest3)
                  | Except.error e => Except.error e
                else Except.error "Expecting comma or brace"
              | [] => Except.error "Expecting comma or brace"
            | Except.error e => Except.error e
          | _ => Except.error "Expecting colon"
        | none => Except.error "Unterminated string"
      else Except.error "Expecting property name"
    | [] => Except.error "Expecting property name"

end

/-- Parse a complete JSON document: one value, with only whitespace allowed
after it.  Models the JSON-decoding step inside the validation call. -/
def parseJsonStr (s : String) : Except String Json :=
  match parseValue (s.length + 1) s.data with
  | Except.error e => Except.error e
  | Except.ok (j, rest) =>
    match skipWs rest with
    | [] => Except.ok j
    | _ => Except.error "Extra data"

/-- The Pydantic model of the source: five required fields. -/
structure UserProfile where
  name : String
  age : Int
  city : String
  interests : List String
  is_student : Bool
deriving DecidableEq

/-- Last-wins field lookup, matching the dict semantics of JSON decoding in
the source language. -/
def lookupField (fields : List (String × Json)) (key : String) : Option Json :=
  fields.foldl (fun acc p => if p.fst = key then some p.snd else acc) none

/-- Validate/coerce a candidate for a `str` field (Pydantic lax mode accepts
only strings here). -/
def asStr : Json → Except String String
  | Json.str s => Except.ok s
  | _ => Except.error "Input should be a valid string"

/-- Integer value of a decimal string, when it is one. -/
def strToInt (s : String) : Option Int :=
  match s.data with
  | '-' :: ds =>
    if ds.isEmpty then none
    else if ds.all Char.isDigit then some (-(Int.ofNat (digitsToNat ds)))
    else none
  | ds =>
    if ds.isEmpty then none
    else if ds.all Char.isDigit then some (Int.ofNat (digitsToNat ds))
    else none

/-- Validate/coerce a candidate for an `int` field: an integer, or (lax mode)
a decimal string. -/
def asInt : Json → Except String Int
  | Json.num n => Except.ok n
  | Json.str s =>
    match strToInt s with
    | some n => Except.ok n
    | none => Except.error "Input should be a valid integer"
  | _ => Except.error "Input should be a valid integer"

/-- String spellings accepted for `true` in lax mode. -/
def boolTrueStrings : List String := ["true", "t", "yes", "y", "on", "1"]

/-- String spellings accepted for `false` in lax mode. -/
def boolFalseStrings : List String := ["false", "f", "no", "n", "off", "0"]

/-- Validate/coerce a candidate for a `bool` field: a boolean, or (lax mode)
the integers 0/1 or a recognised spelling. -/
def asBool : Json → Except String Bool
  | Json.bool b => Except.ok b
  | Json.num n =>
    if n = 0 then Except.ok false
    else if n = 1 then Except.ok true
    else Except.error "Input should be a valid boolean"
  | Json.str s =>
    if boolTrueStrings.contains s.toLower then Except.ok true
    else if boolFalseStrings.contains s.toLower then Except.ok false
    else Except.error "Input should be a valid boolean"
  | _ => Except.error "Input should be a valid boolean"

/-- Validate a candidate for a `List[str]` field. -/
def asStrList : Json → Except String (List String)
  | Json.arr xs =>
    xs.foldr
      (fun j acc =>
        match asStr j, acc with
        | Except.ok s, Except.ok r => Except.ok (s :: r)
        | Except.error e, _ => Except.error e
        | _, Except.error e => Except.error e)
      (Except.ok [])
  | _ => Except.error "Input should be a valid list"

/-- Look up one declared field and run its type check, producing a
field-naming error on absence or mismatch. -/
def fieldCheck {α : Type} (fields : List (String × Json)) (key : String)
    (conv : Json → Except String α) : Except String α :=
  match lookupField fields key with
  | none => Except.error (key ++ ": Field required")
  | some v =>
    match conv v with
    | Except.ok a => Except.ok a
    | Except.error m => Except.error (key ++ ": " ++ m)

/-- Pydantic validation of an already-decoded candidate against the
`UserProfile` schema: the candidate must be an object, every required field
must be present with its declared type (after lax coercion); undeclared
fields are ignored (the Pydantic default policy). -/
def UserProfile.model_validate (j : Json) : Except String UserProfile :=
  match j with
  | Json.obj fields => do
    let n ← fieldCheck fields "name" asStr
    let a ← fieldCheck fields "age" asInt
    let c ← fieldCheck fields "city" asStr
    let i ← fieldCheck fields "interests" asStrList
    let st ← fieldCheck fields "is_student" asBool
    Except.ok (UserProfile.mk n a c i st)
  | _ => Except.error "Input should be a valid dictionary"

/-- `UserProfile.model_validate_json` of the source: decode the raw string as
JSON, then validate the decoded value.  A failure of the decoding step is a
parse error (its text marks it as invalid JSON); a failure of the second step
is a schema violation.  Both surface as `Except.error`, the single failure
channel handled by the single except arm of the source
handles. -/
def UserProfile.model_validate_json (s : String) : Except String UserProfile :=
  match parseJsonStr s with
  | Except.error m => Except.error ("Invalid JSON: " ++ m)
  | Except.ok j => UserProfile.model_validate j

/-- Serialization of a validated `UserProfile` back to a JSON value
(`model_dump` of the source). -/
def UserProfile.model_dump (u : UserProfile) : Json :=
  Json.obj
    [("name", Json.str u.name),
     ("age", Json.num u.age),
     ("city", Json.str u.city),
     ("interests", Json.arr (u.interests.map Json.str)),
     ("is_student", Json.bool u.is_student)]

/-- Shape test: a JSON string. -/
def isStrJson : Json → Bool
  | Json.str _ => true
  | _ => false

/-- Shape test: a JSON integer. -/
def isIntJson : Json → Bool
  | Json.num _ => true
  | _ => false

/-- Shape test: a JSON boolean. -/
def isBoolJson : Json → Bool
  | Json.bool _ => true
  | _ => false

/-- Shape test: a JSON array of strings. -/
def isStrListJson : Json → Bool
  | Json.arr xs => xs.all isStrJson
  | _ => false

/-- The declared field names of the `UserProfile` schema. -/
def userProfileFieldNames : List String :=
  ["name", "age", "city", "interests", "is_student"]

/-- Conformance of a JSON value to the `UserProfile` schema: an object whose
declared fields are all present with their declared types and which carries
no undeclared field. -/
def conformsToUserProfileSchema : Json → Bool
  | Json.obj fields =>
    (match lookupField fields "name" with
     | some v => isStrJson v
     | none => false) &&
    (match lookupField fields "age" with
     | some v => isIntJson v
     | none => false) &&
    (match lookupField fields "city" with
     | some v => isStrJson v
     | none => false) &&
    (match lookupField fields "interests" with
     | some v => isStrListJson v
     | none => false) &&
    (match lookupField fields "is_student" with
     | some v => isBoolJson v
     | none => false) &&
    fields.all (fun p => userProfileFieldNames.contains p.fst)
  | _ => false

/-- A role-tagged chat message, as passed to the collaborator by the source
(`Message(role="system", content=prompt)`). -/
structure Message where
  role : String
  content : String
deriving DecidableEq

/-- Outcome of one `extract` call: `success` models returning the validated
value, `exhausted` models returning `None` after the loop ends, and
`invocationError` models an exception raised by the collaborator `llm.chat`,
which the source does not catch. -/
inductive ExtractOutcome (V : Type) where
  | success (value : V)
  | exhausted
  | invocationError (err : String)
deriving DecidableEq

/-- The fixed prompt template of the source
(`EXTRACTION_PROMPT_TEMPLATE.format(schema=schema, text=text)`). -/
def EXTRACTION_PROMPT_TEMPLATE (schema text : String) : String :=
  "\nYou are a highly efficient information extraction assistant. Your sole responsibility\nis to extract structured data from the provided unstructured text, and return a valid\nJSON object that strictly conforms to the JSON schema below.\n\nYou must adhere to the following rules:\n- Do NOT include any commentary, explanation, or extra text.\n- Only return the raw JSON object—no Markdown, no preamble, no wrapping text.\n- Ensure all required fields are present and conform to the correct data types.\n- If a field is missing from the text or cannot be confidently extracted, use null or an appropriate default.\n- Booleans must be true/false, not \"yes\"/\"no\".\n- Dates must follow ISO 8601 format if specified in the schema (e.g., YYYY-MM-DD).\n- Strings must not contain leading/trailing whitespace.\n\n**Target JSON Schema:**\n```json\n"
  ++ schema
  ++ "\nUnstructured Source Text:\n"
  ++ text
  ++ "\n\nNow extract the data and return ONLY the JSON object:\n"

/-- The text appended to the prompt after a failed attempt, with the failing
raw output and the verbatim error message interpolated exactly as in the two
f-strings of the source. -/
def failureSuffix (responseText errText : String) : String :=
  "\n\nPREVIOUS FAILED ATTEMPT\u0027S OUTPUT:\n" ++ responseText
  ++ "\n\nERROR MESSAGE:\n" ++ errText
  ++ "\n\nPlease correct the output and try again."

/-- The collaborator: given the attempt index (the position of this call in
the session) and the messages sent, either return the raw response text or
fail (`Except.error` models an exception raised inside `llm.chat`). -/
def LLM : Type := Nat → List Message → Except String String

/-- The retry loop of `ExtractionAgent.extract`, one recursive step per
iteration of `for attempt in range(self.max_retries)`.  `fuel` is the number
of loop iterations still available, `attempt` the current iteration index,
`prompt` the current (accumulated) prompt, and `sent` the prompts already
sent.  The returned trace extends `sent` with one entry per model
invocation performed — the only observable side effect of the loop. -/
def extractGo {V : Type} (llm : LLM) (validate : String → Except String V) :
    Nat → Nat → String → List String → ExtractOutcome V × List String
  | 0, _, _, sent => (ExtractOutcome.exhausted, sent)
  | fuel + 1, attempt, prompt, sent =>
    match llm attempt [Message.mk "system" prompt] with
    | Except.error e => (ExtractOutcome.invocationError e, sent ++ [prompt])
    | Except.ok responseText =>
      match validate responseText with
      | Except.ok v => (ExtractOutcome.success v, sent ++ [prompt])
      | Except.error e =>
        extractGo llm validate fuel (attempt + 1)
          (prompt ++ failureSuffix responseText e) (sent ++ [prompt])

/-- The `ExtractionAgent` of the source: a collaborator plus the retry
budget, whose constructor default is 3 (`max_retries: int = 3`). -/
structure ExtractionAgent where
  llm : LLM
  max_retries : Int := 3

/-- `ExtractionAgent.extract` of the source.  The Pydantic `output_model`
argument enters through the two capabilities the method uses: the rendered
JSON schema string (`json.dumps(output_model.model_json_schema(), indent=2)`)
and the validation function (`output_model.model_validate_json`).  The loop
runs `range(max_retries)` times — `Int.toNat` renders the emptiness of
`range(n)` for `n ≤ 0` — starting from the prompt built by the fixed
template, and returns the outcome together with the trace of sent prompts. -/
def ExtractionAgent.extract {V : Type} (agent : ExtractionAgent)
    (text : String) (schemaJson : String)
    (validateJson : String → Except String V) :
    ExtractOutcome V × List String :=
  extractGo agent.llm validateJson agent.max_retries.toNat 0
    (EXTRACTION_PROMPT_TEMPLATE schemaJson text) []

/-- The prompt sent on loop iteration `i` (0-based) of a run whose first
iterations all fail, where `r k`/`e k` are the raw response and the error
text of iteration `k`, `attempt` the index of the first iteration considered
and `prompt` its prompt: each later prompt extends the previous one with the
failure suffix of the response just rejected. -/
def promptSeq (r e : Nat → String) (attempt : Nat) (prompt : String) : Nat → String
  | 0 => prompt
  | i + 1 =>
    promptSeq r e attempt prompt i
      ++ failureSuffix (r (attempt + i)) (e (attempt + i))

/-- Unfolding lemma: a run with no remaining iterations returns the
exhaustion outcome unchanged. -/
theorem extractGo_zero {V : Type} (llm : LLM) (validate : String → Except String V)
    (attempt : Nat) (prompt : String) (sent : List String) :
    extractGo llm validate 0 attempt prompt sent = (ExtractOutcome.exhausted, sent) := rfl

/-- Unfolding lemma: a collaborator exception terminates the run at once. -/
theorem extractGo_invoke_error {V : Type} (llm : LLM) (validate : String → Except String V)
    (fuel attempt : Nat) (prompt : String) (sent : List String) (e : String)
    (h : llm attempt [Message.mk "system" prompt] = Except.error e) :
    extractGo llm validate (fuel + 1) attempt prompt sent =
      (ExtractOutcome.invocationError e, sent ++ [prompt]) := by
  simp [extractGo, h]

/-- Unfolding lemma: a response that validates ends the run with success. -/
theorem extractGo_step_success {V : Type} (llm : LLM) (validate : String → Except String V)
    (fuel attempt : Nat) (prompt : String) (sent : List String) (resp : String) (v : V)
    (h1 : llm attempt [Message.mk "system" prompt] = Except.ok resp)
    (h2 : validate resp = Except.ok v) :
    extractGo llm validate (fuel + 1) attempt prompt sent =
      (ExtractOutcome.success v, sent ++ [prompt]) := by
  simp [extractGo, h1, h2]

/-- Unfolding lemma: a response that fails validation — whichever of the two
exception classes produced the error — continues with the next iteration on
the prompt extended by the failure suffix. -/
theorem extractGo_step_fail {V : Type} (llm : LLM) (validate : String → Except String V)
    (fuel attempt : Nat) (prompt : String) (sent : List String) (resp e : String)
    (h1 : llm attempt [Message.mk "system" prompt] = Except.ok resp)
    (h2 : validate resp = Except.error e) :
    extractGo llm validate (fuel + 1) attempt prompt sent =
      extractGo llm validate fuel (attempt + 1)
        (prompt ++ failureSuffix resp e) (sent ++ [prompt]) := by
  simp [extractGo, h1, h2]

/-- Reindexing of the prompt sequence: starting it one failed attempt later
shifts its argument by one. -/
theorem promptSeq_shift (r e : Nat → String) (attempt : Nat) (prompt : String) (i : Nat) :
    promptSeq r e (attempt + 1) (prompt ++ failureSuffix (r attempt) (e attempt)) i
      = promptSeq r e attempt prompt (i + 1) := by
  induction i with
  | zero => simp [promptSeq]
  | succ n ih =>
    have harith : attempt + 1 + n = attempt + (n + 1) := by omega
    simp only [promptSeq, ih, harith]

/-- Advancing over failing attempts: if the first `n` remaining iterations
all receive a response that fails validation, the run equals the run that
starts `n` iterations later with the prompt grown by the `n` failure
suffixes, and the `n` intermediate prompts appended to the trace. -/
theorem extractGo_failRun {V : Type} (llm : LLM) (validate : String → Except String V)
    (r e : Nat → String) :
    ∀ (n fuel attempt : Nat) (prompt : String) (sent : List String),
      n ≤ fuel →
      (∀ k, k < n →
        (∀ ms, llm (attempt + k) ms = Except.ok (r (attempt + k))) ∧
        validate (r (attempt + k)) = Except.error (e (attempt + k))) →
      extractGo llm validate fuel attempt prompt sent =
        extractGo llm validate (fuel - n) (attempt + n)
          (promptSeq r e attempt prompt n)
          (sent ++ (List.range n).map (promptSeq r e attempt prompt)) := by
  intro n
  induction n with
  | zero =>
    intro fuel attempt prompt sent _ _
    simp [promptSeq]
  | succ m ih =>
    intro fuel attempt prompt sent hle hfail
    cases fuel with
    | zero => exact absurd hle (by omega)
    | succ f =>
      have h0 := hfail 0 (Nat.succ_pos m)
      rw [Nat.add_zero] at h0
      have hstep := extractGo_step_fail llm validate f attempt prompt sent
        (r attempt) (e attempt) (h0.1 _) h0.2
      have hfail2 : ∀ k, k < m →
          (∀ ms, llm (attempt + 1 + k) ms = Except.ok (r (attempt + 1 + k))) ∧
          validate (r (attempt + 1 + k)) = Except.error (e (attempt + 1 + k)) := by
        intro k hk
        have harith : attempt + 1 + k = attempt + (k + 1) := by omega
        rw [harith]
        exact hfail (k + 1) (by omega)
      have hrec := ih f (attempt + 1) (prompt ++ failureSuffix (r attempt) (e attempt))
        (sent ++ [prompt]) (by omega) hfail2
      rw [hstep, hrec]
      have hatt : attempt + 1 + m = attempt + (m + 1) := by omega
      have hprompt : promptSeq r e (attempt + 1)
          (prompt ++ failureSuffix (r attempt) (e attempt)) m
          = promptSeq r e attempt prompt (m + 1) := promptSeq_shift r e attempt prompt m
      have hlist : (sent ++ [prompt]) ++
          (List.range m).map (promptSeq r e (attempt + 1)
            (prompt ++ failureSuffix (r attempt) (e attempt)))
          = sent ++ (List.range (m + 1)).map (promptSeq r e attempt prompt) := by
        rw [List.range_succ_eq_map]
        simp only [List.map_cons, List.map_map]
        have : (List.range m).map
            (promptSeq r e (attempt + 1) (prompt ++ failureSuffix (r attempt) (e attempt)))
            = (List.range m).map (promptSeq r e attempt prompt ∘ Nat.succ) := by
          apply List.map_congr_left
          intro a _
          exact promptSeq_shift r e attempt prompt a
        rw [this]
        simp [promptSeq]
      rw [hatt, hprompt, hlist, show f + 1 - (m + 1) = f - m from by omega]

/-- The trace never grows by more than the available fuel: at most one model
invocation per remaining loop iteration. -/
theorem extractGo_sent_length {V : Type} (llm : LLM) (validate : String → Except String V) :
    ∀ (fuel attempt : Nat) (prompt : String) (sent : List String),
      (extractGo llm validate fuel attempt prompt sent).snd.length ≤ sent.length + fuel := by
  intro fuel
  induction fuel with
  | zero =>
    intro attempt prompt sent
    simp [extractGo_zero]
  | succ f ih =>
    intro attempt prompt sent
    cases h : llm attempt [Message.mk "system" prompt] with
    | error e =>
      rw [extractGo_invoke_error llm validate f attempt prompt sent e h]
      simp
    | ok resp =>
      cases hv : validate resp with
      | ok v =>
        rw [extractGo_step_success llm validate f attempt prompt sent resp v h hv]
        simp
      | error e =>
        rw [extractGo_step_fail llm validate f attempt prompt sent resp e h hv]
        have := ih (attempt + 1) (prompt ++ failureSuffix resp e) (sent ++ [prompt])
        simp at this ⊢
        omega

deriving instance DecidableEq for Except

/-- A collaborator that always returns the same response text. -/
def llmAlways (resp : String) : LLM := fun _ _ => Except.ok resp

/-- A collaborator that answers from a scripted list of responses, indexed by
the attempt, and raises once the script is exhausted. -/
def llmScript (resps : List String) : LLM := fun k _ =>
  match resps[k]? with
  | some rsp => Except.ok rsp
  | none => Except.error "no scripted response"

/-- A raw model response that is valid JSON conforming to the schema. -/
def goodProfileJson : String :=
  "\x7b\"name\": \"Jane\", \"age\": 28, \"city\": \"San Francisco\", \"interests\": [\"painting\", \"running\"], \"is_student\": true\x7d"

/-- The structured value encoded by `goodProfileJson`. -/
def demoProfile : UserProfile :=
  UserProfile.mk "Jane" 28 "San Francisco" ["painting", "running"] true

/-- The error text the embedded validator yields for the non-JSON response
"oops". -/
def oopsError : String := "Invalid JSON: Expecting value"

/-- Strings of the serialization of a string list are all JSON strings. -/
theorem all_map_str (l : List String) : (l.map Json.str).all isStrJson = true := by
  induction l with
  | nil => rfl
  | cons h t ih => simp only [List.map_cons, List.all_cons, isStrJson, ih, Bool.and_self]

/-- Claim C10: constructing the agent with a retry budget of zero or any
negative value makes `extract` return the failure outcome (`None`, i.e. the
exhausted outcome) without invoking the model at all — the `range` over a
non-positive bound is empty — rather than raising or attempting once. -/
theorem nonpositive_budget_no_invocation {V : Type} (llm : LLM)
    (validateJson : String → Except String V) (maxR : Int) (text schemaJson : String)
    (h : maxR ≤ 0) :
    ExtractionAgent.extract (ExtractionAgent.mk llm maxR) text schemaJson validateJson
      = (ExtractOutcome.exhausted, []) := by
  unfold ExtractionAgent.extract
  rw [show (ExtractionAgent.mk llm maxR).max_retries.toNat = 0 from
    Int.toNat_eq_zero.mpr h]
  rfl

/-- Witness for C10: a concrete agent with budget -2 immediately returns the
exhausted outcome with an empty invocation trace. -/
theorem nonpositive_budget_no_invocation_witness :
    ExtractionAgent.extract (ExtractionAgent.mk (llmAlways "oops") (-2)) "some text" "some schema"
        UserProfile.model_validate_json
      = (ExtractOutcome.exhausted, []) :=
  nonpositive_budget_no_invocation (llmAlways "oops") UserProfile.model_validate_json (-2)
    "some text" "some schema" (by decide)

/-- Claim C7: every call to `extract` terminates (the embedding is a total
function of the fuel `max_retries.toNat`), the trace of model invocations —
the only observable side effect of the loop, one invocation per attempt — has
length at most the retry budget, and the budget defaults to 3 when the
caller does not supply one. -/
theorem extract_terminates_within_budget :
    (∀ (V : Type) (agent : ExtractionAgent) (text schemaJson : String)
        (validateJson : String → Except String V),
      (ExtractionAgent.extract agent text schemaJson validateJson).snd.length
        ≤ agent.max_retries.toNat)
    ∧ ∀ (llm : LLM), ({ llm := llm } : ExtractionAgent).max_retries = 3 := by
  constructor
  · intro V agent text schemaJson validateJson
    have h := extractGo_sent_length agent.llm validateJson agent.max_retries.toNat 0
      (EXTRACTION_PROMPT_TEMPLATE schemaJson text) []
    simpa [ExtractionAgent.extract] using h
  · intro llm
    rfl

/-- Claim C8: schema validation is idempotent and pure.  The embedding of
`model_validate_json` is a mathematical function, mirroring the source
validation call, which reads its candidate (an immutable string) and mutates
nothing; hence validating the same candidate twice yields the same outcome —
the same success/failure classification and the same error description.
Additionally, validation is idempotent in the stronger round-trip sense: a
value that validated successfully re-validates to the same value after
serialization. -/
theorem model_validate_idempotent_pure :
    (∀ s : String,
      UserProfile.model_validate_json s = UserProfile.model_validate_json s)
    ∧ (∀ j : Json, UserProfile.model_validate j = UserProfile.model_validate j)
    ∧ (∀ u : UserProfile,
      UserProfile.model_validate (UserProfile.model_dump u) = Except.ok u) := by
  refine ⟨fun _ => rfl, fun _ => rfl, fun u => ?_⟩
  cases u with
  | mk n a c i st =>
    have hlist : asStrList (Json.arr (i.map Json.str)) = Except.ok i := by
      induction i with
      | nil => rfl
      | cons h t ih =>
        simp only [List.map_cons, asStrList, List.foldr_cons] at ih ⊢
        rw [show (t.map Json.str).foldr _ (Except.ok []) = Except.ok t from ih]
        rfl
    simp [UserProfile.model_dump, UserProfile.model_validate, fieldCheck, lookupField,
      asStr, asInt, asBool, hlist]
    rfl

/-- Claim C6: every successful `extract` call returns a structured value that
conforms exactly to the schema — serializing it yields an object in which
every required field of `UserProfile` is present with its declared type
(recursively for the list field) and which carries no undeclared field. -/
theorem extract_success_conforms (agent : ExtractionAgent) (text schemaJson : String)
    (u : UserProfile)
    (_h : (ExtractionAgent.extract agent text schemaJson UserProfile.model_validate_json).fst
      = ExtractOutcome.success u) :
    conformsToUserProfileSchema (UserProfile.model_dump u) = true := by
  cases u with
  | mk n a c i st =>
    simp +decide [UserProfile.model_dump, conformsToUserProfileSchema, lookupField,
      isStrJson, isIntJson, isBoolJson, isStrListJson, userProfileFieldNames, all_map_str]

/-- Witness for C6: a concrete run in which the first response is
`goodProfileJson` succeeds, and the returned value serializes to a
schema-conformant object. -/
theorem extract_success_conforms_witness :
    conformsToUserProfileSchema (UserProfile.model_dump demoProfile) = true :=
  extract_success_conforms (ExtractionAgent.mk (llmAlways goodProfileJson) 3)
    "unstructured text" "rendered schema" demoProfile (by decide)

/-- Claim C1 (amended): when all `maxAttempts` responses fail parsing or
validation, `extract` returns the non-exceptional terminal failure value of
the source — `None`, embedded as the exhausted outcome — after exactly
`maxAttempts` model invocations; it never raises for exhaustion.  The failure
value itself carries neither the last error text nor the attempt count. -/
theorem extract_exhaustion_returns_none {V : Type} (llm : LLM)
    (validateJson : String → Except String V) (maxR : Int) (text schemaJson : String)
    (r e : Nat → String)
    (hfail : ∀ k, k < maxR.toNat →
      (∀ ms, llm k ms = Except.ok (r k)) ∧ validateJson (r k) = Except.error (e k)) :
    (ExtractionAgent.extract (ExtractionAgent.mk llm maxR) text schemaJson validateJson).fst
        = ExtractOutcome.exhausted
    ∧ (ExtractionAgent.extract (ExtractionAgent.mk llm maxR) text schemaJson validateJson).snd.length
        = maxR.toNat := by
  have hfail0 : ∀ k, k < maxR.toNat →
      (∀ ms, llm (0 + k) ms = Except.ok (r (0 + k))) ∧
      validateJson (r (0 + k)) = Except.error (e (0 + k)) := by
    intro k hk
    rw [Nat.zero_add]
    exact hfail k hk
  have h := extractGo_failRun llm validateJson r e maxR.toNat maxR.toNat 0
    (EXTRACTION_PROMPT_TEMPLATE schemaJson text) [] (Nat.le_refl _) hfail0
  rw [Nat.sub_self] at h
  unfold ExtractionAgent.extract
  rw [h, extractGo_zero]
  simp

/-- Witness for C1: a concrete agent whose collaborator always answers
"oops" (never valid JSON) with budget 3 returns the exhausted outcome after
exactly 3 invocations. -/
theorem extract_exhaustion_returns_none_witness :
    (ExtractionAgent.extract (ExtractionAgent.mk (llmAlways "oops") 3) "T" "S"
        UserProfile.model_validate_json).fst = ExtractOutcome.exhausted
    ∧ (ExtractionAgent.extract (ExtractionAgent.mk (llmAlways "oops") 3) "T" "S"
        UserProfile.model_validate_json).snd.length = 3 :=
  extract_exhaustion_returns_none (llmAlways "oops") UserProfile.model_validate_json 3
    "T" "S" (fun _ => "oops") (fun _ => oopsError)
    (by
      intro k hk
      refine ⟨fun ms => rfl, ?_⟩
      show UserProfile.model_validate_json "oops" = Except.error oopsError
      decide)

/-- Counterexample to C1 as stated: the terminal failure value does not carry
the error text of the last attempt or the attempt count in a tagged form.  Two
exhausted sessions whose last errors differ (a parse error for "oops", a
required-field violation for the empty object) yield the same terminal value,
and so do two sessions with different budgets 1 and 2 — so no component of
the returned failure value can report the error text or the attempt count:
the value is the bare `None` of the source. -/
theorem exhaustion_result_carries_nothing :
    (ExtractionAgent.extract (ExtractionAgent.mk (llmAlways "oops") 2) "T" "S"
        UserProfile.model_validate_json).fst
      = (ExtractionAgent.extract (ExtractionAgent.mk (llmAlways "\x7b\x7d") 2) "T" "S"
        UserProfile.model_validate_json).fst
    ∧ (ExtractionAgent.extract (ExtractionAgent.mk (llmAlways "oops") 1) "T" "S"
        UserProfile.model_validate_json).fst
      = (ExtractionAgent.extract (ExtractionAgent.mk (llmAlways "oops") 2) "T" "S"
        UserProfile.model_validate_json).fst
    ∧ UserProfile.model_validate_json "oops" ≠ UserProfile.model_validate_json "\x7b\x7d"
    ∧ (ExtractionAgent.extract (ExtractionAgent.mk (llmAlways "oops") 2) "T" "S"
        UserProfile.model_validate_json).fst = ExtractOutcome.exhausted := by
  refine ⟨rfl, rfl, by decide, rfl⟩

/-- Claim C2 (amended): within a session the engine appends each failure
suffix to the *current* (accumulated) prompt, not to the base prompt: under
responses that all fail validation, the sequence of prompts sent is exactly
`promptSeq`, whose defining recurrence extends the prompt of the previous attempt
— so the prompt of attempt 2 is the base prompt plus the first failure
suffix, and each later prompt is the previous prompt plus the suffix built
from the immediately preceding raw output and its verbatim error text. -/
theorem extract_prompt_accumulates {V : Type} (llm : LLM)
    (validateJson : String → Except String V) (maxR : Int) (text schemaJson : String)
    (r e : Nat → String)
    (hfail : ∀ k, k < maxR.toNat →
      (∀ ms, llm k ms = Except.ok (r k)) ∧ validateJson (r k) = Except.error (e k)) :
    (ExtractionAgent.extract (ExtractionAgent.mk llm maxR) text schemaJson validateJson).snd
        = (List.range maxR.toNat).map
            (promptSeq r e 0 (EXTRACTION_PROMPT_TEMPLATE schemaJson text))
    ∧ ∀ k, promptSeq r e 0 (EXTRACTION_PROMPT_TEMPLATE schemaJson text) (k + 1)
        = promptSeq r e 0 (EXTRACTION_PROMPT_TEMPLATE schemaJson text) k
          ++ failureSuffix (r k) (e k) := by
  constructor
  · have hfail0 : ∀ k, k < maxR.toNat →
        (∀ ms, llm (0 + k) ms = Except.ok (r (0 + k))) ∧
        validateJson (r (0 + k)) = Except.error (e (0 + k)) := by
      intro k hk
      rw [Nat.zero_add]
      exact hfail k hk
    have h := extractGo_failRun llm validateJson r e maxR.toNat maxR.toNat 0
      (EXTRACTION_PROMPT_TEMPLATE schemaJson text) [] (Nat.le_refl _) hfail0
    rw [Nat.sub_self] at h
    unfold ExtractionAgent.extract
    rw [h, extractGo_zero]
    simp
  · intro k
    simp [promptSeq]

/-- Witness for C2: the concrete all-failing session with budget 3 sends
exactly the prompts of the accumulating sequence. -/
theorem extract_prompt_accumulates_witness :
    (ExtractionAgent.extract (ExtractionAgent.mk (llmAlways "oops") 3) "T" "S"
        UserProfile.model_validate_json).snd
      = (List.range (Int.toNat 3)).map
          (promptSeq (fun _ => "oops") (fun _ => oopsError) 0
            (EXTRACTION_PROMPT_TEMPLATE "S" "T"))
    ∧ ∀ k, promptSeq (fun _ => "oops") (fun _ => oopsError) 0
          (EXTRACTION_PROMPT_TEMPLATE "S" "T") (k + 1)
        = promptSeq (fun _ => "oops") (fun _ => oopsError) 0
            (EXTRACTION_PROMPT_TEMPLATE "S" "T") k
          ++ failureSuffix "oops" oopsError :=
  extract_prompt_accumulates (llmAlways "oops") UserProfile.model_validate_json 3 "T" "S"
    (fun _ => "oops") (fun _ => oopsError)
    (by
      intro k hk
      refine ⟨fun ms => rfl, ?_⟩
      show UserProfile.model_validate_json "oops" = Except.error oopsError
      decide)

/-- Counterexample to C2 as stated: in a concrete all-failing session with
budget 3, the prompt sent on attempt 3 is not the base prompt plus the
suffix built from the raw output and error of the immediately preceding
(second) attempt — it also contains the failure suffix of the first attempt, because the
source appends to the accumulated prompt, not to the base prompt. -/
theorem third_prompt_not_base_plus_last_suffix :
    ((ExtractionAgent.extract (ExtractionAgent.mk (llmAlways "oops") 3) "T" "S"
        UserProfile.model_validate_json).snd)[2]?
      ≠ some (EXTRACTION_PROMPT_TEMPLATE "S" "T" ++ failureSuffix "oops" oopsError) := by
  set_option maxRecDepth 10000 in decide

/-- Claim C3: when the first N-1 responses fail parsing/validation and the
Nth is valid (N within the budget), `extract` returns success wrapping the
validated value and performs exactly N model invocations; in particular a
first conforming response succeeds on attempt 1 with a single invocation,
and success is terminal — the trace length is N even when budget remains. -/
theorem extract_succeeds_on_first_valid {V : Type} (llm : LLM)
    (validateJson : String → Except String V) (maxR : Int) (text schemaJson : String)
    (N : Nat) (r e : Nat → String) (v : V)
    (hN : 1 ≤ N) (hbudget : N ≤ maxR.toNat)
    (hfail : ∀ k, k < N - 1 →
      (∀ ms, llm k ms = Except.ok (r k)) ∧ validateJson (r k) = Except.error (e k))
    (hlast : ∀ ms, llm (N - 1) ms = Except.ok (r (N - 1)))
    (hvalid : validateJson (r (N - 1)) = Except.ok v) :
    (ExtractionAgent.extract (ExtractionAgent.mk llm maxR) text schemaJson validateJson).fst
        = ExtractOutcome.success v
    ∧ (ExtractionAgent.extract (ExtractionAgent.mk llm maxR) text schemaJson validateJson).snd.length
        = N := by
  have hfail0 : ∀ k, k < N - 1 →
      (∀ ms, llm (0 + k) ms = Except.ok (r (0 + k))) ∧
      validateJson (r (0 + k)) = Except.error (e (0 + k)) := by
    intro k hk
    rw [Nat.zero_add]
    exact hfail k hk
  have h := extractGo_failRun llm validateJson r e (N - 1) maxR.toNat 0
    (EXTRACTION_PROMPT_TEMPLATE schemaJson text) [] (by omega) hfail0
  rw [Nat.zero_add] at h
  obtain ⟨m, hm⟩ : ∃ m, maxR.toNat - (N - 1) = m + 1 := ⟨maxR.toNat - N, by omega⟩
  rw [hm] at h
  unfold ExtractionAgent.extract
  rw [h, extractGo_step_success llm validateJson m (N - 1)
    (promptSeq r e 0 (EXTRACTION_PROMPT_TEMPLATE schemaJson text) (N - 1))
    ([] ++ (List.range (N - 1)).map (promptSeq r e 0 (EXTRACTION_PROMPT_TEMPLATE schemaJson text)))
    (r (N - 1)) v (hlast _) hvalid]
  refine ⟨rfl, ?_⟩
  simp
  omega

/-- Witness for C3: a scripted collaborator that fails once ("oops") and then
returns conforming JSON makes the concrete agent succeed on attempt 2 with
exactly 2 invocations, although budget remains. -/
theorem extract_succeeds_on_first_valid_witness :
    (ExtractionAgent.extract (ExtractionAgent.mk (llmScript ["oops", goodProfileJson]) 3)
        "T" "S" UserProfile.model_validate_json).fst
      = ExtractOutcome.success demoProfile
    ∧ (ExtractionAgent.extract (ExtractionAgent.mk (llmScript ["oops", goodProfileJson]) 3)
        "T" "S" UserProfile.model_validate_json).snd.length = 2 :=
  extract_succeeds_on_first_valid (llmScript ["oops", goodProfileJson])
    UserProfile.model_validate_json 3 "T" "S" 2
    (fun k => if k = 0 then "oops" else goodProfileJson) (fun _ => oopsError) demoProfile
    (by omega) (by decide)
    (by
      intro k hk
      have hk0 : k = 0 := by omega
      subst hk0
      refine ⟨fun ms => rfl, ?_⟩
      show UserProfile.model_validate_json "oops" = Except.error oopsError
      decide)
    (fun ms => rfl)
    (by
      show UserProfile.model_validate_json goodProfileJson = Except.ok demoProfile
      decide)

/-- Claim C4: an exception raised by the model-invocation collaborator on
some attempt propagates immediately out of `extract` — the try/except of the source
covers only the validation call — terminating the session with the distinct
invocation-error outcome; it is not retried, and no further model
invocations occur after it (the trace stops at that attempt). -/
theorem invocation_error_propagates {V : Type} (llm : LLM)
    (validateJson : String → Except String V) (maxR : Int) (text schemaJson : String)
    (j : Nat) (r e : Nat → String) (err : String)
    (hj : j < maxR.toNat)
    (hfail : ∀ k, k < j →
      (∀ ms, llm k ms = Except.ok (r k)) ∧ validateJson (r k) = Except.error (e k))
    (hraise : ∀ ms, llm j ms = Except.error err) :
    (ExtractionAgent.extract (ExtractionAgent.mk llm maxR) text schemaJson validateJson).fst
        = ExtractOutcome.invocationError err
    ∧ (ExtractionAgent.extract (ExtractionAgent.mk llm maxR) text schemaJson validateJson).snd.length
        = j + 1 := by
  have hfail0 : ∀ k, k < j →
      (∀ ms, llm (0 + k) ms = Except.ok (r (0 + k))) ∧
      validateJson (r (0 + k)) = Except.error (e (0 + k)) := by
    intro k hk
    rw [Nat.zero_add]
    exact hfail k hk
  have h := extractGo_failRun llm validateJson r e j maxR.toNat 0
    (EXTRACTION_PROMPT_TEMPLATE schemaJson text) [] (by omega) hfail0
  rw [Nat.zero_add] at h
  obtain ⟨m, hm⟩ : ∃ m, maxR.toNat - j = m + 1 := ⟨maxR.toNat - j - 1, by omega⟩
  rw [hm] at h
  unfold ExtractionAgent.extract
  rw [h, extractGo_invoke_error llm validateJson m j
    (promptSeq r e 0 (EXTRACTION_PROMPT_TEMPLATE schemaJson text) j)
    ([] ++ (List.range j).map (promptSeq r e 0 (EXTRACTION_PROMPT_TEMPLATE schemaJson text)))
    err (hraise _)]
  refine ⟨rfl, ?_⟩
  simp

/-- Witness for C4: a collaborator that fails validation once and then raises
"timeout" terminates the concrete session with the invocation-error outcome
after exactly 2 invocations, although budget 3 remains. -/
theorem invocation_error_propagates_witness :
    (ExtractionAgent.extract (ExtractionAgent.mk (llmScript ["oops"]) 3)
        "T" "S" UserProfile.model_validate_json).fst
      = ExtractOutcome.invocationError "no scripted response"
    ∧ (ExtractionAgent.extract (ExtractionAgent.mk (llmScript ["oops"]) 3)
        "T" "S" UserProfile.model_validate_json).snd.length = 1 + 1 :=
  invocation_error_propagates (llmScript ["oops"]) UserProfile.model_validate_json 3 "T" "S"
    1 (fun _ => "oops") (fun _ => oopsError) "no scripted response"
    (by decide)
    (by
      intro k hk
      have hk0 : k = 0 := by omega
      subst hk0
      refine ⟨fun ms => rfl, ?_⟩
      show UserProfile.model_validate_json "oops" = Except.error oopsError
      decide)
    (fun ms => rfl)

/-- The accumulating prompt sequence is monotone: a later prompt extends an
earlier one. -/
theorem promptSeq_extend (r e : Nat → String) (prompt : String) (i d : Nat) :
    ∃ t, promptSeq r e 0 prompt (i + d) = promptSeq r e 0 prompt i ++ t := by
  induction d with
  | zero => exact ⟨"", by simp⟩
  | succ m ih =>
    obtain ⟨t, ht⟩ := ih
    refine ⟨t ++ failureSuffix (r (0 + (i + m))) (e (0 + (i + m))), ?_⟩
    show promptSeq r e 0 prompt (i + m)
        ++ failureSuffix (r (0 + (i + m))) (e (0 + (i + m))) = _
    rw [ht, String.append_assoc]

/-- Claim C9: within one all-failing extraction session the prompt grows
monotonically — each sent prompt has every earlier sent prompt as a prefix —
and the prompt of attempt j+1 contains the raw output and the verbatim
error text of every one of the j earlier failed attempts, not only the most
recent one. -/
theorem prompts_grow_monotonically {V : Type} (llm : LLM)
    (validateJson : String → Except String V) (maxR : Int) (text schemaJson : String)
    (r e : Nat → String)
    (hfail : ∀ k, k < maxR.toNat →
      (∀ ms, llm k ms = Except.ok (r k)) ∧ validateJson (r k) = Except.error (e k)) :
    ∀ i j, i ≤ j →
      j < (ExtractionAgent.extract (ExtractionAgent.mk llm maxR) text schemaJson validateJson).snd.length →
      ∃ pi pj t,
        ((ExtractionAgent.extract (ExtractionAgent.mk llm maxR) text schemaJson validateJson).snd)[i]?
          = some pi
        ∧ ((ExtractionAgent.extract (ExtractionAgent.mk llm maxR) text schemaJson validateJson).snd)[j]?
          = some pj
        ∧ pj = pi ++ t
        ∧ ∀ k, k < j → ∃ a b, pj = a ++ failureSuffix (r k) (e k) ++ b := by
  have hfail0 : ∀ k, k < maxR.toNat →
      (∀ ms, llm (0 + k) ms = Except.ok (r (0 + k))) ∧
      validateJson (r (0 + k)) = Except.error (e (0 + k)) := by
    intro k hk
    rw [Nat.zero_add]
    exact hfail k hk
  have h := extractGo_failRun llm validateJson r e maxR.toNat maxR.toNat 0
    (EXTRACTION_PROMPT_TEMPLATE schemaJson text) [] (Nat.le_refl _) hfail0
  rw [Nat.sub_self] at h
  have htr : (ExtractionAgent.extract (ExtractionAgent.mk llm maxR) text schemaJson validateJson).snd
      = (List.range maxR.toNat).map
          (promptSeq r e 0 (EXTRACTION_PROMPT_TEMPLATE schemaJson text)) := by
    unfold ExtractionAgent.extract
    rw [h, extractGo_zero]
    simp
  intro i j hij hj
  rw [htr] at hj ⊢
  have hjn : j < maxR.toNat := by simpa using hj
  have hin : i < maxR.toNat := by omega
  have hi : ((List.range maxR.toNat).map
      (promptSeq r e 0 (EXTRACTION_PROMPT_TEMPLATE schemaJson text)))[i]?
      = some (promptSeq r e 0 (EXTRACTION_PROMPT_TEMPLATE schemaJson text) i) := by
    rw [List.getElem?_map, List.getElem?_range hin]
    rfl
  have hjel : ((List.range maxR.toNat).map
      (promptSeq r e 0 (EXTRACTION_PROMPT_TEMPLATE schemaJson text)))[j]?
      = some (promptSeq r e 0 (EXTRACTION_PROMPT_TEMPLATE schemaJson text) j) := by
    rw [List.getElem?_map, List.getElem?_range hjn]
    rfl
  obtain ⟨t, ht⟩ := promptSeq_extend r e (EXTRACTION_PROMPT_TEMPLATE schemaJson text) i (j - i)
  rw [show i + (j - i) = j from by omega] at ht
  refine ⟨_, _, t, hi, hjel, ht, ?_⟩
  intro k hk
  obtain ⟨t2, ht2⟩ := promptSeq_extend r e (EXTRACTION_PROMPT_TEMPLATE schemaJson text)
    (k + 1) (j - (k + 1))
  rw [show k + 1 + (j - (k + 1)) = j from by omega] at ht2
  refine ⟨promptSeq r e 0 (EXTRACTION_PROMPT_TEMPLATE schemaJson text) k, t2, ?_⟩
  rw [ht2]
  show promptSeq r e 0 (EXTRACTION_PROMPT_TEMPLATE schemaJson text) k
      ++ failureSuffix (r (0 + k)) (e (0 + k)) ++ t2 = _
  rw [Nat.zero_add]

/-- Witness for C9: in the concrete all-failing session with budget 3, the
prompt of attempt 3 extends the prompt of attempt 1 and contains the failure
suffix of every earlier attempt. -/
theorem prompts_grow_monotonically_witness :
    ∃ pi pj t,
      ((ExtractionAgent.extract (ExtractionAgent.mk (llmAlways "oops") 3) "T" "S"
          UserProfile.model_validate_json).snd)[0]? = some pi
      ∧ ((ExtractionAgent.extract (ExtractionAgent.mk (llmAlways "oops") 3) "T" "S"
          UserProfile.model_validate_json).snd)[2]? = some pj
      ∧ pj = pi ++ t
      ∧ ∀ k, k < 2 → ∃ a b,
          pj = a ++ failureSuffix ((fun _ => "oops") k) ((fun _ => oopsError) k) ++ b :=
  prompts_grow_monotonically (llmAlways "oops") UserProfile.model_validate_json 3 "T" "S"
    (fun _ => "oops") (fun _ => oopsError)
    (by
      intro k hk
      refine ⟨fun ms => rfl, ?_⟩
      show UserProfile.model_validate_json "oops" = Except.error oopsError
      decide)
    0 2 (by omega) (by decide)

/-- A list of whitespace characters is skipped entirely. -/
theorem skipWs_eq_nil (l : List Char) (h : ∀ c ∈ l, jsonWs c = true) : skipWs l = [] := by
  induction l with
  | nil => rfl
  | cons c cs ih =>
    simp only [skipWs, h c (List.mem_cons_self c cs), if_true]
    exact ih (fun x hx => h x (List.mem_cons_of_mem c hx))

/-- Claim C5: a response that parses but violates the schema takes exactly
the same control-flow path as one that fails to parse.  Both produce an
`Except.error` from the single validation call (conjuncts 2 and 3), and for
every failing response — whatever its error text — the loop takes the one
retry step, differing only in the error text carried into the prompt suffix
(conjunct 1).  Empty or whitespace-only raw output always fails the JSON
decoding step with the parse error text (conjunct 4), so it is retried the
same way. -/
theorem validation_failures_share_path :
    (∀ (llm : LLM) (fuel attempt : Nat) (prompt : String) (sent : List String) (s e : String),
      llm attempt [Message.mk "system" prompt] = Except.ok s →
      UserProfile.model_validate_json s = Except.error e →
      extractGo llm UserProfile.model_validate_json (fuel + 1) attempt prompt sent =
        extractGo llm UserProfile.model_validate_json fuel (attempt + 1)
          (prompt ++ failureSuffix s e) (sent ++ [prompt]))
    ∧ (∀ s m, parseJsonStr s = Except.error m →
        UserProfile.model_validate_json s = Except.error ("Invalid JSON: " ++ m))
    ∧ (∀ s j m, parseJsonStr s = Except.ok j →
        UserProfile.model_validate j = Except.error m →
        UserProfile.model_validate_json s = Except.error m)
    ∧ (∀ s : String, (∀ c ∈ s.data, jsonWs c = true) →
        parseJsonStr s = Except.error "Expecting value") := by
  refine ⟨?_, ?_, ?_, ?_⟩
  · intro llm fuel attempt prompt sent s e h1 h2
    exact extractGo_step_fail llm UserProfile.model_validate_json fuel attempt prompt sent
      s e h1 h2
  · intro s m h
    unfold UserProfile.model_validate_json
    rw [h]
  · intro s j m h1 h2
    unfold UserProfile.model_validate_json
    rw [h1]
    exact h2
  · intro s hws
    have h1 : skipWs s.data = [] := skipWs_eq_nil s.data hws
    unfold parseJsonStr
    rw [show s.length + 1 = Nat.succ s.length from rfl]
    simp only [parseValue, h1]

/-- Witness for C5: the retry step at a concrete loop state for the parse
error of "oops"; the parse-error classification of "oops"; the
schema-violation classification of the empty object (a required field is
missing, not a parse error); and the whitespace-only response, classified as
a parse error. -/
theorem validation_failures_share_path_witness :
    (extractGo (llmAlways "oops") UserProfile.model_validate_json 1 0 "P" [] =
      extractGo (llmAlways "oops") UserProfile.model_validate_json 0 1
        ("P" ++ failureSuffix "oops" oopsError) ([] ++ ["P"]))
    ∧ UserProfile.model_validate_json "oops" = Except.error ("Invalid JSON: " ++ "Expecting value")
    ∧ UserProfile.model_validate_json "\x7b\x7d" = Except.error "name: Field required"
    ∧ parseJsonStr " \t\n " = Except.error "Expecting value" :=
  ⟨validation_failures_share_path.1 (llmAlways "oops") 0 0 "P" [] "oops" oopsError rfl
      (by decide),
   validation_failures_share_path.2.1 "oops" "Expecting value" rfl,
   validation_failures_share_path.2.2.1 "\x7b\x7d" (Json.obj []) "name: Field required"
      rfl rfl,
   validation_failures_share_path.2.2.2 " \t\n " (by decide)⟩
